import Mathlib

/-!
# SheetBridge — Schema Inference & Transactional Ingestion Engine: a verification development

This file gives a shallow embedding, in Lean 4, of the core logic of the
SheetBridge repository (CSV → PostgreSQL ingestion):

* the identifier sanitizer `SanitizeSQLName` (internal/services/csv.go),
* the per-commit column-definition construction of the `CommitCSV` handler
  (internal/handlers, `AppHandlers.CommitCSV`),
* schema inference `InferSchemaFromPreview` (internal/services/csv.go),
* the schema compatibility relation `isPostgresTypeCompatible` and
  `ValidateTable` of the repository layer,
* value coercion and row insertion `InsertData` (internal/repositories/repository.go),
* the transactional commit flow of `AppHandlers.CommitCSV` over an abstract
  database state.

Go's standard library primitives (`strings.TrimSpace`, `strings.ToLower`,
`strconv.ParseInt`, `strconv.ParseFloat`, `time.Parse` for the fixed layout
lists appearing in the source) are modelled by executable Lean functions that
follow the documented behaviour of those primitives; each model notes the
simplifications it makes.  Strings are handled as `List Char`; at every point
where the Go code does byte-based indexing (the 63-byte truncation in the
sanitizer) the string has already been reduced to ASCII `[a-z0-9_]`, so
character counts coincide with byte counts.
-/

namespace SheetBridge

/-! ## Character helpers (models of Go rune predicates) -/

/-- Two characters with the same code point are equal. -/
theorem charEq_of_toNat_eq {a b : Char} (h : a.toNat = b.toNat) : a = b :=
  Char.eq_of_val_eq (UInt32.ext h)

/-- ASCII decimal digit `0`–`9`. -/
def isAsciiDigit (c : Char) : Bool := 48 ≤ c.toNat && c.toNat ≤ 57

/-- ASCII lowercase letter `a`–`z`. -/
def isLowerAZ (c : Char) : Bool := 97 ≤ c.toNat && c.toNat ≤ 122

/-- ASCII uppercase letter `A`–`Z`. -/
def isUpperAZ (c : Char) : Bool := 65 ≤ c.toNat && c.toNat ≤ 90

/-- The character class kept by the regex `[^a-zA-Z0-9_]+ → ""` used in
`SanitizeSQLName` (`nonAlphanumericRegex`). -/
def isWordChar (c : Char) : Bool :=
  isLowerAZ c || isUpperAZ c || isAsciiDigit c || c.toNat = 95

/-- The subset of `isWordChar` with no uppercase letters; every character of a
sanitized identifier lands here. -/
def lowerWordChar (c : Char) : Bool :=
  isLowerAZ c || isAsciiDigit c || c.toNat = 95

/-- Model of Go `unicode.IsSpace` (the code points of Unicode's White_Space
property, as listed in the Go documentation). -/
def isGoSpace (c : Char) : Bool :=
  (9 ≤ c.toNat && c.toNat ≤ 13) || c.toNat = 32 || c.toNat = 0x85 || c.toNat = 0xA0 ||
  c.toNat = 0x1680 || (0x2000 ≤ c.toNat && c.toNat ≤ 0x200A) ||
  c.toNat = 0x2028 || c.toNat = 0x2029 || c.toNat = 0x202F || c.toNat = 0x205F ||
  c.toNat = 0x3000

/-- Model of Go `unicode.ToLower` restricted to mappings whose result matters
after the sanitizer's `[^a-zA-Z0-9_]` filter: the ASCII range plus the two
non-ASCII code points whose lowercase form is ASCII (U+212A KELVIN SIGN → `k`,
U+0130 LATIN CAPITAL LETTER I WITH DOT ABOVE → `i`).  All other characters are
left unchanged; any remaining non-ASCII character is removed by the filter
step, so this restriction does not affect the sanitizer's output. -/
def goLowerChar (c : Char) : Char :=
  if 65 ≤ c.toNat ∧ c.toNat ≤ 90 then Char.ofNat (c.toNat + 32)
  else if c.toNat = 0x212A then 'k'
  else if c.toNat = 0x130 then 'i'
  else c

/-- Model of Go `unicode.ToUpper` under the same restriction (U+0131 LATIN
SMALL LETTER DOTLESS I → `I`, U+017F LATIN SMALL LETTER LONG S → `S`). -/
def goUpperChar (c : Char) : Char :=
  if 97 ≤ c.toNat ∧ c.toNat ≤ 122 then Char.ofNat (c.toNat - 32)
  else if c.toNat = 0x131 then 'I'
  else if c.toNat = 0x17F then 'S'
  else c

/-- The separator set replaced by `_` in `SanitizeSQLName`
(`strings.ReplaceAll` with `"-"`, `" "`, `"."`, `"/"`). -/
def replSep (c : Char) : Char :=
  if c.toNat = 32 ∨ c.toNat = 45 ∨ c.toNat = 46 ∨ c.toNat = 47 then '_' else c

/-! ## Go `strings` primitives on `List Char` -/

/-- Go `strings.TrimSpace`. -/
def trimSpaceL (l : List Char) : List Char :=
  ((l.dropWhile isGoSpace).reverse.dropWhile isGoSpace).reverse

/-- Drop a leading run of underscores (half of Go `strings.Trim(s, "_")`). -/
def dropLeadU (l : List Char) : List Char := l.dropWhile (fun c => c.toNat = 95)

/-- Drop a trailing run of underscores (Go `strings.TrimRight(s, "_")`). -/
def dropTrailU (l : List Char) : List Char :=
  (l.reverse.dropWhile (fun c => c.toNat = 95)).reverse

/-- Go `strings.Trim(s, "_")`. -/
def trimU (l : List Char) : List Char := dropTrailU (dropLeadU l)

/-- The regex `_+ → "_"` (`multipleUnderscoreRegex`): collapse each run of
underscores to a single underscore. -/
def collapseU : List Char → List Char
  | [] => []
  | [c] => [c]
  | a :: b :: rest =>
    if a.toNat = 95 ∧ b.toNat = 95 then collapseU (b :: rest)
    else a :: collapseU (b :: rest)

/-! ## The identifier sanitizer

`CSVService.SanitizeSQLName` (internal/services/csv.go):

```go
name = strings.TrimSpace(name)
name = strings.ToLower(name)
name = strings.ReplaceAll(name, "-", "_")   // likewise " ", ".", "/"
name = nonAlphanumericRegex.ReplaceAllString(name, "")   // [^a-zA-Z0-9_]+ → ""
name = multipleUnderscoreRegex.ReplaceAllString(name, "_")  // _+ → "_"
name = strings.Trim(name, "_")
if name == "" { return "unnamed_identifier" }
if leadingNumericRegex.MatchString(name) { name = "_" + name }   // ^[0-9]
if len(name) > 63 { name = name[:63]; name = strings.TrimRight(name, "_") }
if name == "" { return "sanatized_empty_identifier" }
return name
```

At the truncation step every character is in `[a-z0-9_]` (one byte each), so
`name[:63]` is modelled by `List.take 63`. -/

def unnamedId : List Char := "unnamed_identifier".data

def sanitizedEmptyId : List Char := "sanatized_empty_identifier".data

/-- Whether a list of characters starts with an ASCII digit
(`leadingNumericRegex` = `^[0-9]`). -/
def headIsDigit : List Char → Bool
  | [] => false
  | c :: _ => isAsciiDigit c

/-- Stages 1–6 of `SanitizeSQLName`: trim, lowercase, separator replacement,
non-word filtering, underscore collapsing, underscore trimming. -/
def sanitizeCore (l : List Char) : List Char :=
  trimU (collapseU ((((trimSpaceL l).map goLowerChar).map replSep).filter isWordChar))

/-- The leading-digit rule: `if leadingNumericRegex.MatchString(name) { name = "_" + name }`. -/
def prefixDigit (n6 : List Char) : List Char :=
  if headIsDigit n6 then '_' :: n6 else n6

/-- The 63-byte truncation with trailing-underscore re-trim:
`if len(name) > 63 { name = name[:63]; name = strings.TrimRight(name, "_") }`. -/
def truncate63 (n7 : List Char) : List Char :=
  if n7.length > 63 then dropTrailU (n7.take 63) else n7

/-- The final steps of `SanitizeSQLName`: empty fallback, leading-digit prefix,
63-byte truncation with trailing-underscore re-trim, truncation fallback. -/
def sanitizeFinish (n6 : List Char) : List Char :=
  if n6 = [] then unnamedId
  else if truncate63 (prefixDigit n6) = [] then sanitizedEmptyId
  else truncate63 (prefixDigit n6)

def sanitizeL (l : List Char) : List Char := sanitizeFinish (sanitizeCore l)

/-- `CSVService.SanitizeSQLName`. -/
def SanitizeSQLName (s : String) : String := String.mk (sanitizeL s.data)

/-! ## Character-class lemmas -/

theorem toNat_ofNat_valid (n : Nat) (h : n < 55296) : (Char.ofNat n).toNat = n := by
  have h' : n.isValidChar := Or.inl h
  simp [Char.ofNat, h']
  rfl

theorem lowerWord_nat {c : Char} (h : lowerWordChar c = true) :
    (97 ≤ c.toNat ∧ c.toNat ≤ 122) ∨ (48 ≤ c.toNat ∧ c.toNat ≤ 57) ∨ c.toNat = 95 := by
  simp only [lowerWordChar, isLowerAZ, isAsciiDigit, Bool.or_eq_true, Bool.and_eq_true,
    decide_eq_true_eq] at h
  tauto

theorem lowerWord_not_space {c : Char} (h : lowerWordChar c = true) : isGoSpace c = false := by
  have h' := lowerWord_nat h
  simp only [isGoSpace, Bool.or_eq_false_iff, Bool.and_eq_false_iff, decide_eq_false_iff_not,
    Bool.and_eq_false_imp, decide_eq_true_eq]
  omega

theorem lowerWord_goLower {c : Char} (h : lowerWordChar c = true) : goLowerChar c = c := by
  have h' := lowerWord_nat h
  unfold goLowerChar
  rw [if_neg (by omega), if_neg (by omega), if_neg (by omega)]

theorem lowerWord_replSep {c : Char} (h : lowerWordChar c = true) : replSep c = c := by
  have h' := lowerWord_nat h
  unfold replSep
  rw [if_neg (by omega)]

theorem lowerWord_isWord {c : Char} (h : lowerWordChar c = true) : isWordChar c = true := by
  have h' := lowerWord_nat h
  simp only [isWordChar, isLowerAZ, isUpperAZ, isAsciiDigit, Bool.or_eq_true, Bool.and_eq_true,
    decide_eq_true_eq]
  omega

theorem goLower_not_upper (c : Char) : isUpperAZ (goLowerChar c) = false := by
  unfold goLowerChar
  split
  · next h =>
      have hv : (Char.ofNat (c.toNat + 32)).toNat = c.toNat + 32 :=
        toNat_ofNat_valid _ (by omega)
      simp only [isUpperAZ, Bool.and_eq_false_iff, decide_eq_false_iff_not, hv]
      omega
  · split
    · decide
    · split
      · decide
      · next h _ _ =>
          simp only [isUpperAZ, Bool.and_eq_false_iff, decide_eq_false_iff_not]
          omega

theorem replSep_not_upper {c : Char} (h : isUpperAZ c = false) : isUpperAZ (replSep c) = false := by
  unfold replSep
  split
  · decide
  · exact h

theorem word_lower_of_not_upper {c : Char} (hw : isWordChar c = true) (hu : isUpperAZ c = false) :
    lowerWordChar c = true := by
  simp only [isWordChar, isLowerAZ, isUpperAZ, isAsciiDigit, Bool.or_eq_true, Bool.and_eq_true,
    decide_eq_true_eq] at hw
  simp only [isUpperAZ, Bool.and_eq_false_iff, decide_eq_false_iff_not] at hu
  simp only [lowerWordChar, isLowerAZ, isAsciiDigit, Bool.or_eq_true, Bool.and_eq_true,
    decide_eq_true_eq]
  omega

/-! ## List-level invariants for the sanitizer -/

/-- All characters are in the lowercase identifier alphabet `[a-z0-9_]`. -/
def AllLW (l : List Char) : Prop := ∀ c ∈ l, lowerWordChar c = true

/-- No two adjacent underscores. -/
def NoDD (l : List Char) : Prop := l.Chain' (fun a b => ¬(a.toNat = 95 ∧ b.toNat = 95))

theorem collapseU_head? (l : List Char) : (collapseU l).head? = l.head? := by
  induction l using collapseU.induct with
  | case1 => rfl
  | case2 c => rfl
  | case3 a b rest h ih =>
      have hab : a = b := charEq_of_toNat_eq (by omega)
      subst hab
      rw [collapseU, if_pos h, ih]
      rfl
  | case4 a b rest h ih => simp [collapseU, if_neg h]

theorem collapseU_subset (l : List Char) : ∀ c ∈ collapseU l, c ∈ l := by
  induction l using collapseU.induct with
  | case1 => simp [collapseU]
  | case2 d => simp [collapseU]
  | case3 a b rest hc ih =>
      rw [collapseU, if_pos hc]
      intro c hc'
      exact List.mem_cons_of_mem _ (ih c hc')
  | case4 a b rest hc ih =>
      rw [collapseU, if_neg hc]
      intro c hc'
      rcases List.mem_cons.mp hc' with h | h
      · simp [h]
      · exact List.mem_cons_of_mem _ (ih c h)

theorem collapseU_noDD (l : List Char) : NoDD (collapseU l) := by
  induction l using collapseU.induct with
  | case1 => simp [collapseU, NoDD]
  | case2 c => simp [collapseU, NoDD]
  | case3 a b rest h ih =>
      rw [NoDD, collapseU, if_pos h]
      exact ih
  | case4 a b rest h ih =>
      rw [NoDD, collapseU, if_neg h]
      rw [List.chain'_cons']
      refine ⟨?_, ih⟩
      intro y hy
      rw [collapseU_head?] at hy
      simp only [List.head?_cons, Option.mem_def, Option.some.injEq] at hy
      subst hy
      exact h

theorem collapseU_id {l : List Char} (h : NoDD l) : collapseU l = l := by
  induction l using collapseU.induct with
  | case1 => rfl
  | case2 c => rfl
  | case3 a b rest hc ih =>
      rw [NoDD, List.chain'_cons] at h
      exact absurd hc h.1
  | case4 a b rest hc ih =>
      rw [NoDD, List.chain'_cons] at h
      rw [collapseU, if_neg hc, ih h.2]

theorem dropWhile_eq_self_of_all {p : Char → Bool} {l : List Char}
    (h : ∀ c ∈ l, p c = false) : l.dropWhile p = l := by
  cases l with
  | nil => rfl
  | cons c t => simp [List.dropWhile_cons, h c (List.mem_cons_self c t)]

theorem head?_dropWhile_ne {p : Char → Bool} {l : List Char} {c : Char}
    (h : (l.dropWhile p).head? = some c) : p c = false := by
  induction l with
  | nil => simp at h
  | cons a t ih =>
      rw [List.dropWhile_cons] at h
      by_cases hp : p a = true
      · rw [if_pos hp] at h
        exact ih h
      · rw [if_neg hp] at h
        simp only [List.head?_cons, Option.some.injEq] at h
        subst h
        simpa using hp

theorem dropWhile_eq_self_of_head? {p : Char → Bool} {l : List Char}
    (h : ∀ c, l.head? = some c → p c = false) : l.dropWhile p = l := by
  cases l with
  | nil => rfl
  | cons c t => simp [List.dropWhile_cons, h c rfl]

theorem prefix_head? {l₁ l₂ : List Char} (h : l₁ <+: l₂) (hne : l₁ ≠ []) :
    l₂.head? = l₁.head? := by
  obtain ⟨t, rfl⟩ := h
  cases l₁ with
  | nil => exact absurd rfl hne
  | cons c r => rfl

theorem prefix_getElem? {l₁ l₂ : List Char} (h : l₁ <+: l₂) {i : Nat} (hi : i < l₁.length) :
    l₂[i]? = l₁[i]? := by
  obtain ⟨t, rfl⟩ := h
  rw [List.getElem?_append_left hi]

/-! ### `dropLeadU`, `dropTrailU`, `trimU` -/

theorem dropLeadU_suffix (l : List Char) : dropLeadU l <:+ l := List.dropWhile_suffix _

theorem head?_dropLeadU {l : List Char} {c : Char} (h : (dropLeadU l).head? = some c) :
    c.toNat ≠ 95 := by
  have := head?_dropWhile_ne (p := fun c => c.toNat = 95) h
  simpa using this

theorem dropLeadU_eq_self {l : List Char} (h : ∀ c, l.head? = some c → c.toNat ≠ 95) :
    dropLeadU l = l := by
  refine dropWhile_eq_self_of_head? ?_
  intro c hc
  simpa using h c hc

theorem dropTrailU_pre (l : List Char) : dropTrailU l <+: l := by
  have h : (l.reverse.dropWhile (fun c => c.toNat = 95)) <:+ l.reverse :=
    List.dropWhile_suffix _
  have h2 : dropTrailU l <+: l.reverse.reverse := List.reverse_prefix.mpr h
  rwa [List.reverse_reverse] at h2

theorem getLast?_dropTrailU {l : List Char} {c : Char} (h : (dropTrailU l).getLast? = some c) :
    c.toNat ≠ 95 := by
  rw [dropTrailU, List.getLast?_reverse] at h
  have := head?_dropWhile_ne (p := fun c => c.toNat = 95) h
  simpa using this

theorem dropTrailU_eq_self {l : List Char} (h : ∀ c, l.getLast? = some c → c.toNat ≠ 95) :
    dropTrailU l = l := by
  rw [dropTrailU, dropWhile_eq_self_of_head?, List.reverse_reverse]
  intro c hc
  rw [List.head?_reverse] at hc
  simpa using h c hc

theorem dropTrailU_ne_nil {l : List Char} {c : Char} (hc : c ∈ l) (h95 : c.toNat ≠ 95) :
    dropTrailU l ≠ [] := by
  intro hnil
  rw [dropTrailU, List.reverse_eq_nil_iff, List.dropWhile_eq_nil_iff] at hnil
  have := hnil c (List.mem_reverse.mpr hc)
  simp at this
  exact h95 this

theorem trimU_inf (l : List Char) : trimU l <:+: l := by
  have h1 : trimU l <:+: dropLeadU l := List.IsPrefix.isInfix (dropTrailU_pre (dropLeadU l))
  have h2 : dropLeadU l <:+: l := List.IsSuffix.isInfix (dropLeadU_suffix l)
  exact List.IsInfix.trans h1 h2

theorem head?_trimU {l : List Char} {c : Char} (h : (trimU l).head? = some c) :
    c.toNat ≠ 95 := by
  have hne : trimU l ≠ [] := by
    intro hnil
    rw [hnil] at h
    simp at h
  have hpre : (dropLeadU l).head? = (trimU l).head? :=
    prefix_head? (dropTrailU_pre (dropLeadU l)) hne
  exact head?_dropLeadU (hpre.trans h)

theorem getLast?_trimU {l : List Char} {c : Char} (h : (trimU l).getLast? = some c) :
    c.toNat ≠ 95 := getLast?_dropTrailU h

/-! ### The shape of sanitized identifiers -/

/-- The head constraint a sanitized identifier satisfies: it is nonempty; if it
starts with an underscore the next character is a digit (the leading-digit
rule); otherwise it does not start with a digit. -/
def HeadOK (l : List Char) : Prop :=
  match l with
  | [] => False
  | c :: t =>
    if c.toNat = 95 then
      match t with
      | [] => False
      | d :: _ => isAsciiDigit d = true
    else isAsciiDigit c = false

/-- Characterization of non-fallback sanitizer outputs: lowercase word
characters only, no doubled underscore, no trailing underscore, the head
constraint, and at most 63 characters. -/
def GoodTail (l : List Char) : Prop :=
  AllLW l ∧ NoDD l ∧ (∀ c, l.getLast? = some c → c.toNat ≠ 95) ∧ HeadOK l ∧ l.length ≤ 63

theorem allLW_mono {l l' : List Char} (h : AllLW l) (hi : l' <:+: l) : AllLW l' :=
  fun c hc => h c (hi.subset hc)

theorem noDD_mono {l l' : List Char} (h : NoDD l) (hi : l' <:+: l) : NoDD l' :=
  List.Chain'.infix h hi

theorem allLW_stage4 (l : List Char) :
    AllLW ((((trimSpaceL l).map goLowerChar).map replSep).filter isWordChar) := by
  intro c hc
  rw [List.mem_filter] at hc
  obtain ⟨hc3, hw⟩ := hc
  rw [List.mem_map] at hc3
  obtain ⟨b, hb, rfl⟩ := hc3
  rw [List.mem_map] at hb
  obtain ⟨a, _, rfl⟩ := hb
  exact word_lower_of_not_upper hw (replSep_not_upper (goLower_not_upper a))

theorem sanitizeCore_allLW (l : List Char) : AllLW (sanitizeCore l) := by
  refine allLW_mono ?_ (trimU_inf _)
  intro c hc
  exact allLW_stage4 l c (collapseU_subset _ c hc)

theorem sanitizeCore_noDD (l : List Char) : NoDD (sanitizeCore l) :=
  noDD_mono (collapseU_noDD _) (trimU_inf _)

theorem isAsciiDigit_nat {c : Char} (h : isAsciiDigit c = true) :
    48 ≤ c.toNat ∧ c.toNat ≤ 57 := by
  simpa [isAsciiDigit, Bool.and_eq_true, decide_eq_true_eq] using h

theorem headOK_ne_nil {l : List Char} (h : HeadOK l) : l ≠ [] := by
  intro hnil
  rw [hnil] at h
  exact h

theorem prefixDigit_props {n6 : List Char} (h6 : n6 ≠ [])
    (hA : AllLW n6) (hD : NoDD n6)
    (hHead : ∀ c, n6.head? = some c → c.toNat ≠ 95)
    (hLast : ∀ c, n6.getLast? = some c → c.toNat ≠ 95) :
    AllLW (prefixDigit n6) ∧ NoDD (prefixDigit n6) ∧
    (∀ c, (prefixDigit n6).getLast? = some c → c.toNat ≠ 95) ∧
    HeadOK (prefixDigit n6) := by
  obtain ⟨c0, t0, rfl⟩ := List.exists_cons_of_ne_nil h6
  have hc0 : c0.toNat ≠ 95 := hHead c0 rfl
  unfold prefixDigit
  by_cases hd : headIsDigit (c0 :: t0) = true
  · rw [if_pos hd]
    have hdg : isAsciiDigit c0 = true := by simpa [headIsDigit] using hd
    have hdn := isAsciiDigit_nat hdg
    refine ⟨?_, ?_, ?_, ?_⟩
    · intro c hc
      rcases List.mem_cons.mp hc with h | h
      · subst h; decide
      · exact hA c h
    · rw [NoDD, List.chain'_cons]
      exact ⟨fun hpair => by omega, hD⟩
    · intro c hc
      rw [List.getLast?_cons_cons] at hc
      exact hLast c hc
    · simp [HeadOK, hdg]
  · rw [if_neg hd]
    have hnd : isAsciiDigit c0 = false := by simpa [headIsDigit] using hd
    exact ⟨hA, hD, hLast, by simp [HeadOK, hc0, hnd]⟩

theorem truncate63_good {n7 : List Char}
    (hA : AllLW n7) (hD : NoDD n7)
    (hLast : ∀ c, n7.getLast? = some c → c.toNat ≠ 95)
    (hH : HeadOK n7) :
    GoodTail (truncate63 n7) ∧ truncate63 n7 ≠ [] := by
  unfold truncate63
  by_cases htr : n7.length > 63
  · rw [if_pos htr]
    obtain ⟨c0, t0, rfl⟩ := List.exists_cons_of_ne_nil (headOK_ne_nil hH)
    have hpre_m : (c0 :: t0).take 63 <+: c0 :: t0 := List.take_prefix _ _
    have hpre2 : dropTrailU ((c0 :: t0).take 63) <+: c0 :: t0 :=
      List.IsPrefix.trans (dropTrailU_pre _) hpre_m
    have hinf : dropTrailU ((c0 :: t0).take 63) <:+: c0 :: t0 :=
      List.IsPrefix.isInfix hpre2
    have hlen : (dropTrailU ((c0 :: t0).take 63)).length ≤ 63 :=
      le_trans (dropTrailU_pre _).length_le (List.length_take_le _ _)
    have hL : ∀ c, (dropTrailU ((c0 :: t0).take 63)).getLast? = some c → c.toNat ≠ 95 :=
      fun c hc => getLast?_dropTrailU hc
    by_cases hc95 : c0.toNat = 95
    · -- the identifier was digit-prefixed: second character is a digit
      simp only [HeadOK] at hH
      rw [if_pos hc95] at hH
      cases t0 with
      | nil => exact absurd hH (by simp)
      | cons d t0' =>
          have hdg : isAsciiDigit d = true := hH
          have hdn := isAsciiDigit_nat hdg
          have htake1 : ((c0 :: d :: t0').take 63)[1]? = some d := by
            simp [List.getElem?_take]
          have hdmem : d ∈ (c0 :: d :: t0').take 63 := List.getElem?_mem htake1
          have hne : dropTrailU ((c0 :: d :: t0').take 63) ≠ [] :=
            dropTrailU_ne_nil hdmem (by omega)
          refine ⟨⟨allLW_mono hA hinf, noDD_mono hD hinf, hL, ?_, hlen⟩, hne⟩
          obtain ⟨e, r, hr⟩ := List.exists_cons_of_ne_nil hne
          have hhead : (c0 :: d :: t0').head? = (dropTrailU ((c0 :: d :: t0').take 63)).head? :=
            prefix_head? hpre2 hne
          rw [hr] at hhead
          have he : e = c0 := by
            simp only [List.head?_cons, Option.some.injEq] at hhead
            exact hhead.symm
          have hr_ne : r ≠ [] := by
            intro hrnil
            have : (dropTrailU ((c0 :: d :: t0').take 63)).getLast? = some e := by
              rw [hr, hrnil]
              rfl
            exact hL e this (by rw [he]; exact hc95)
          obtain ⟨f, r2, hr2⟩ := List.exists_cons_of_ne_nil hr_ne
          have hget1 : (c0 :: d :: t0')[1]? = (dropTrailU ((c0 :: d :: t0').take 63))[1]? := by
            refine prefix_getElem? hpre2 ?_
            rw [hr, hr2]
            simp
          rw [hr, hr2] at hget1
          have hf : f = d := by
            simp only [List.getElem?_cons_succ, List.getElem?_cons_zero,
              Option.some.injEq] at hget1
            exact hget1.symm
          rw [hr, hr2, he, hf]
          simp [HeadOK, hc95, hdg]
    · -- the identifier starts with an ordinary (non-underscore) character
      simp only [HeadOK] at hH
      rw [if_neg hc95] at hH
      have htake0 : ((c0 :: t0).take 63)[0]? = some c0 := by
        simp [List.getElem?_take]
      have hmem : c0 ∈ (c0 :: t0).take 63 := List.getElem?_mem htake0
      have hne : dropTrailU ((c0 :: t0).take 63) ≠ [] := dropTrailU_ne_nil hmem hc95
      refine ⟨⟨allLW_mono hA hinf, noDD_mono hD hinf, hL, ?_, hlen⟩, hne⟩
      obtain ⟨e, r, hr⟩ := List.exists_cons_of_ne_nil hne
      have hhead : (c0 :: t0).head? = (dropTrailU ((c0 :: t0).take 63)).head? :=
        prefix_head? hpre2 hne
      rw [hr] at hhead
      have he : e = c0 := by
        simp only [List.head?_cons, Option.some.injEq] at hhead
        exact hhead.symm
      rw [hr, he]
      simp [HeadOK, hc95, hH]
  · rw [if_neg htr]
    exact ⟨⟨hA, hD, hLast, hH, by omega⟩, headOK_ne_nil hH⟩

theorem sanitizeFinish_good {n6 : List Char}
    (hA : AllLW n6) (hD : NoDD n6)
    (hHead : ∀ c, n6.head? = some c → c.toNat ≠ 95)
    (hLast : ∀ c, n6.getLast? = some c → c.toNat ≠ 95) :
    sanitizeFinish n6 = unnamedId ∨ GoodTail (sanitizeFinish n6) := by
  unfold sanitizeFinish
  by_cases h6 : n6 = []
  · rw [if_pos h6]
    left
    rfl
  · rw [if_neg h6]
    obtain ⟨pA, pD, pL, pH⟩ := prefixDigit_props h6 hA hD hHead hLast
    obtain ⟨G, hne⟩ := truncate63_good pA pD pL pH
    rw [if_neg hne]
    right
    exact G

theorem sanitizeL_good (l : List Char) :
    sanitizeL l = unnamedId ∨ GoodTail (sanitizeL l) := by
  refine sanitizeFinish_good (sanitizeCore_allLW l) (sanitizeCore_noDD l) ?_ ?_
  · intro c hc
    exact head?_trimU hc
  · intro c hc
    exact getLast?_trimU hc

/-! ### The sanitizer fixes every good identifier -/

theorem map_id_on {f : Char → Char} {l : List Char} (h : ∀ c ∈ l, f c = c) : l.map f = l := by
  induction l with
  | nil => rfl
  | cons a t ih =>
      rw [List.map_cons, h a (List.mem_cons_self a t),
        ih fun c hc => h c (List.mem_cons_of_mem _ hc)]

theorem trimSpaceL_eq_self {l : List Char} (hA : AllLW l) : trimSpaceL l = l := by
  have h1 : l.dropWhile isGoSpace = l :=
    dropWhile_eq_self_of_all fun c hc => lowerWord_not_space (hA c hc)
  have h2 : l.reverse.dropWhile isGoSpace = l.reverse :=
    dropWhile_eq_self_of_all fun c hc => lowerWord_not_space (hA c (List.mem_reverse.mp hc))
  rw [trimSpaceL, h1, h2, List.reverse_reverse]

theorem goodTail_fixed {l : List Char} (h : GoodTail l) : sanitizeL l = l := by
  obtain ⟨hA, hD, hLast, hH, hLen⟩ := h
  obtain ⟨c0, t0, rfl⟩ := List.exists_cons_of_ne_nil (headOK_ne_nil hH)
  have h1 : trimSpaceL (c0 :: t0) = c0 :: t0 := trimSpaceL_eq_self hA
  have h2 : (c0 :: t0).map goLowerChar = c0 :: t0 :=
    map_id_on fun c hc => lowerWord_goLower (hA c hc)
  have h3 : (c0 :: t0).map replSep = c0 :: t0 :=
    map_id_on fun c hc => lowerWord_replSep (hA c hc)
  have h4 : (c0 :: t0).filter isWordChar = c0 :: t0 :=
    List.filter_eq_self.mpr fun c hc => lowerWord_isWord (hA c hc)
  have h5 : collapseU (c0 :: t0) = c0 :: t0 := collapseU_id hD
  rw [sanitizeL, sanitizeCore, h1, h2, h3, h4, h5]
  by_cases hc95 : c0.toNat = 95
  · -- digit-prefixed identifier: "_" followed by a digit
    simp only [HeadOK] at hH
    rw [if_pos hc95] at hH
    cases t0 with
    | nil => exact absurd hH (by simp)
    | cons d t0' =>
        have hdg : isAsciiDigit d = true := hH
        have hdn := isAsciiDigit_nat hdg
        have hlead : dropLeadU (c0 :: d :: t0') = d :: t0' := by
          rw [dropLeadU, List.dropWhile_cons, if_pos (by simpa using hc95),
            List.dropWhile_cons, if_neg (by simp; omega)]
        have htrail : dropTrailU (d :: t0') = d :: t0' := by
          refine dropTrailU_eq_self ?_
          intro c hc
          refine hLast c ?_
          rw [List.getLast?_cons_cons]
          exact hc
        have hcore : trimU (c0 :: d :: t0') = d :: t0' := by
          rw [trimU, hlead, htrail]
        rw [hcore, sanitizeFinish, if_neg (by simp)]
        have hpd : prefixDigit (d :: t0') = c0 :: d :: t0' := by
          rw [prefixDigit, if_pos (by simpa [headIsDigit] using hdg)]
          have : c0 = '_' := charEq_of_toNat_eq (by simpa using hc95)
          rw [this]
        have htc : truncate63 (c0 :: d :: t0') = c0 :: d :: t0' := by
          rw [truncate63, if_neg (by omega)]
        rw [hpd, htc, if_neg (by simp)]
  · -- ordinary identifier: no leading underscore, no leading digit
    simp only [HeadOK] at hH
    rw [if_neg hc95] at hH
    have hlead : dropLeadU (c0 :: t0) = c0 :: t0 := by
      rw [dropLeadU, List.dropWhile_cons, if_neg (by simpa using hc95)]
    have htrail : dropTrailU (c0 :: t0) = c0 :: t0 := dropTrailU_eq_self hLast
    have hcore : trimU (c0 :: t0) = c0 :: t0 := by
      rw [trimU, hlead, htrail]
    rw [hcore, sanitizeFinish, if_neg (by simp)]
    have hpd : prefixDigit (c0 :: t0) = c0 :: t0 := by
      rw [prefixDigit, if_neg (by simpa [headIsDigit] using hH)]
    have htc : truncate63 (c0 :: t0) = c0 :: t0 := by
      rw [truncate63, if_neg (by omega)]
    rw [hpd, htc, if_neg (by simp)]

theorem sanitizeL_unnamedId : sanitizeL unnamedId = unnamedId := by decide

theorem sanitizeL_idem (l : List Char) : sanitizeL (sanitizeL l) = sanitizeL l := by
  rcases sanitizeL_good l with h | h
  · rw [h]
    exact sanitizeL_unnamedId
  · exact goodTail_fixed h

/-- C8: the identifier sanitizer `SanitizeSQLName` is a deterministic total
function (it is modelled as a pure Lean function, total by construction) and
is idempotent: for every string `x`, `sanitize(sanitize(x)) = sanitize(x)`.
The proof covers all paths of the function, including the empty-result
fallback `unnamed_identifier`, the leading-digit underscore prefix, and the
63-byte truncation with trailing-underscore re-trim. -/
theorem claim_C8_sanitize_idempotent (s : String) :
    SanitizeSQLName (SanitizeSQLName s) = SanitizeSQLName s := by
  show String.mk (sanitizeL (String.mk (sanitizeL s.data)).data) = String.mk (sanitizeL s.data)
  rw [show (String.mk (sanitizeL s.data)).data = sanitizeL s.data from rfl, sanitizeL_idem]

/-! ## Column-definition construction in `AppHandlers.CommitCSV`

internal/handlers (`CommitCSV`, the loop over `req.ColumnNames`):

```go
for i, rawColName := range req.ColumnNames {
    sanitizedColName := h.csvService.SanitizeSQLName(rawColName)
    if sanitizedColName == "" || sanitizedColName == "unnamed_identifier" ||
        sanitizedColName == "sanitized_empty_identifier" {
        sanitizedColName = fmt.Sprintf("column_%d", i+1)
    }
    columnDefs[i] = models.ColumnDefinition{Name: sanitizedColName, Type: req.ColumnTypes[i]}
}
```

(Note the handler compares against `"sanitized_empty_identifier"` while the
sanitizer's truncation fallback is spelled `"sanatized_empty_identifier"`.) -/

/-- The name chosen for column `i` (0-based) from the raw header `raw`. -/
def commitColumnName (i : Nat) (raw : String) : String :=
  let s := SanitizeSQLName raw
  if s = "" ∨ s = "unnamed_identifier" ∨ s = "sanitized_empty_identifier" then
    "column_" ++ toString (i + 1)
  else s

/-- The list of column names used for DDL and insertion by `CommitCSV`. -/
def buildColumnNames (names : List String) : List String :=
  names.mapIdx fun i raw => commitColumnName i raw

/-- C7 (failing-input evaluation): the engine does not disambiguate distinct
raw headers that sanitize to the same ordinary identifier.  The headers
`"a b"` and `"a.b"` both sanitize to `"a_b"`, and `CommitCSV` emits the
duplicate pair unchanged, violating the claimed pairwise-distinctness
invariant of the schema used for DDL. -/
theorem claim_C7_duplicate_names :
    buildColumnNames ["a b", "a.b"] = ["a_b", "a_b"] ∧
    ¬ (buildColumnNames ["a b", "a.b"]).Pairwise (· ≠ ·) := by
  constructor
  · decide
  · decide

/-! ## Models of `strconv` numeric parsing -/

def isHexDigitCh (c : Char) : Bool :=
  isAsciiDigit c || (97 ≤ c.toNat && c.toNat ≤ 102) || (65 ≤ c.toNat && c.toNat ≤ 70)

def digitsToNat (l : List Char) : Nat := l.foldl (fun acc c => acc * 10 + (c.toNat - 48)) 0

/-- Model of Go `strconv.ParseInt(s, 10, 64)`: an optional sign followed by at
least one ASCII decimal digit (no underscores in base 10 with an explicit
base), with the result required to fit in a signed 64-bit integer. -/
def goParseInt? (s : String) : Option Int :=
  match s.data with
  | [] => none
  | c :: rest =>
    let sd : Bool × List Char :=
      if c.toNat = 43 then (false, rest)
      else if c.toNat = 45 then (true, rest)
      else (false, c :: rest)
    let ds := sd.2
    if ds = [] then none
    else if ds.all isAsciiDigit then
      let n := digitsToNat ds
      if sd.1 then (if n ≤ 2 ^ 63 then some (-(n : Int)) else none)
      else if n ≤ 2 ^ 63 - 1 then some (n : Int) else none
    else none

def goParseIntOk (s : String) : Bool := (goParseInt? s).isSome

/-- Decimal mantissa with optional fraction and optional decimal exponent
(Go float literal syntax, underscores already stripped). -/
def parseDecFloatBody (m : List Char) : Bool :=
  let ip := m.takeWhile isAsciiDigit
  let r1 := m.dropWhile isAsciiDigit
  let hasDot : Bool := match r1 with
    | c :: _ => c.toNat = 46
    | [] => false
  let fp := if hasDot then r1.tail.takeWhile isAsciiDigit else []
  let r2 := if hasDot then r1.tail.dropWhile isAsciiDigit else r1
  if ip = [] && fp = [] then false
  else
    match r2 with
    | [] => true
    | e :: r3 =>
      if e.toNat = 101 ∨ e.toNat = 69 then
        let r4 := match r3 with
          | c :: rest => if c.toNat = 43 ∨ c.toNat = 45 then rest else r3
          | [] => []
        r4 ≠ [] && r4.all isAsciiDigit
      else false

/-- Hexadecimal mantissa (after `0x`) with mandatory binary exponent `p`. -/
def parseHexFloatBody (m : List Char) : Bool :=
  let ip := m.takeWhile isHexDigitCh
  let r1 := m.dropWhile isHexDigitCh
  let hasDot : Bool := match r1 with
    | c :: _ => c.toNat = 46
    | [] => false
  let fp := if hasDot then r1.tail.takeWhile isHexDigitCh else []
  let r2 := if hasDot then r1.tail.dropWhile isHexDigitCh else r1
  if ip = [] && fp = [] then false
  else
    match r2 with
    | p :: r3 =>
      if p.toNat = 112 ∨ p.toNat = 80 then
        let r4 := match r3 with
          | c :: rest => if c.toNat = 43 ∨ c.toNat = 45 then rest else r3
          | [] => []
        r4 ≠ [] && r4.all isAsciiDigit
      else false
    | [] => false

/-- Every underscore sits between two (hex) digits or follows a base-prefix
letter `x`/`X` (Go `strconv`'s `underscoreOK`, slightly relaxed: the base
prefix context is not tracked, which only over-accepts strings that the digit
grammar then rejects anyway). -/
def underscoresOK : List Char → Bool
  | [] => true
  | [c] => c.toNat ≠ 95
  | a :: b :: rest =>
    (if b.toNat = 95 then
      (isHexDigitCh a || a.toNat = 120 || a.toNat = 88) &&
        (match rest with
         | c :: _ => isHexDigitCh c
         | [] => false)
    else true) &&
    (if a.toNat = 95 && b.toNat = 95 then false else true) &&
    underscoresOK (b :: rest)

/-- Model of Go `strconv.ParseFloat(s, 64)` as a success predicate: optional
sign; then `inf`/`infinity`/`nan` (case-insensitive), or a decimal literal
with optional fraction and exponent, or a hexadecimal literal `0x…p…`.
Underscores are accepted between digits.  Overflow/underflow to the `ErrRange`
error (values beyond ±1.8e308 or below the smallest subnormal) is not
modelled; no claim in this development depends on it. -/
def goParseFloatOk (s : String) : Bool :=
  let l := s.data
  let l1 := match l with
    | c :: rest => if c.toNat = 43 ∨ c.toNat = 45 then rest else l
    | [] => []
  if l1 = [] then false
  else
    let low := l1.map goLowerChar
    if low = "inf".data ∨ low = "infinity".data ∨ low = "nan".data then true
    else if !(underscoresOK l1) || l1.head?.any (fun c => c.toNat = 95) then false
    else
      let m := l1.filter (fun c => c.toNat ≠ 95)
      match m with
      | z :: x :: rest =>
        if z.toNat = 48 ∧ (x.toNat = 120 ∨ x.toNat = 88) then parseHexFloatBody rest
        else parseDecFloatBody m
      | _ => parseDecFloatBody m

/-! ## Models of `time.Parse` for the fixed layouts in the source

Go reference-layout parsing is modelled per layout string.  Padded numeric
tokens (`01`, `02`, `04`, `05`) require exactly two digits; non-padded ones
(`1`, `2`, `3`) and the 24-hour token `15` accept one or two digits (Go's
`getnum` with `fixed=false`); `2006` requires four digits.  Month and day are
range-checked against the calendar (Go's `Date` validation), hour/minute/second
against 23/59/59.  A fractional-second field (`.` or `,` plus digits) is
accepted immediately after a seconds field even when the layout has none, per
the documented `time.Parse` behaviour.  The layouts equal to the `RFC3339` /
`RFC3339Nano` constants use the strict RFC 3339 parser (Go special-cases
them): `T` separator, padded fields, and a `Z`/`z` or `±hh:mm` zone. -/

def readFixedAux : Nat → Nat → List Char → Option (Nat × List Char)
  | 0, acc, l => some (acc, l)
  | _+1, _, [] => none
  | k+1, acc, c :: rest =>
    if isAsciiDigit c then readFixedAux k (acc * 10 + (c.toNat - 48)) rest else none

/-- Read exactly `k` ASCII digits. -/
def readFixed (k : Nat) (l : List Char) : Option (Nat × List Char) := readFixedAux k 0 l

/-- Go `getnum` with `fixed = false`: two digits if the next two characters are
digits, otherwise one digit. -/
def readNum12 : List Char → Option (Nat × List Char)
  | [] => none
  | a :: rest =>
    if isAsciiDigit a then
      match rest with
      | b :: rest2 =>
        if isAsciiDigit b then some ((a.toNat - 48) * 10 + (b.toNat - 48), rest2)
        else some (a.toNat - 48, rest)
      | [] => some (a.toNat - 48, [])
    else none

/-- Match one literal character, given by code point. -/
def litC (n : Nat) : List Char → Option (List Char)
  | c :: rest => if c.toNat = n then some rest else none
  | [] => none

def monthNames : List (List Char) :=
  ["jan".data, "feb".data, "mar".data, "apr".data, "may".data, "jun".data,
   "jul".data, "aug".data, "sep".data, "oct".data, "nov".data, "dec".data]

/-- Case-insensitive three-letter month abbreviation (Go's `lookup` over
`shortMonthNames`). -/
def readMon3 : List Char → Option (Nat × List Char)
  | a :: b :: c :: rest =>
    let key := [goLowerChar a, goLowerChar b, goLowerChar c]
    match monthNames.findIdx? (fun m => m = key) with
    | some i => some (i + 1, rest)
    | none => none
  | _ => none

def isLeap (y : Nat) : Bool := (y % 4 = 0 && y % 100 ≠ 0) || y % 400 = 0

def daysInMonth (y m : Nat) : Nat :=
  if m = 2 then (if isLeap y then 29 else 28)
  else if m = 4 ∨ m = 6 ∨ m = 9 ∨ m = 11 then 30
  else 31

def validYMD (y m d : Nat) : Bool :=
  1 ≤ m && m ≤ 12 && 1 ≤ d && d ≤ daysInMonth y m

/-- Optional fractional seconds: `.` or `,` followed by at least one digit. -/
def skipFrac (l : List Char) : List Char :=
  match l with
  | c :: d :: rest =>
    if (c.toNat = 46 ∨ c.toNat = 44) ∧ isAsciiDigit d then
      (d :: rest).dropWhile isAsciiDigit
    else l
  | _ => l

/-- Layout `2006-01-02` (also `time.RFC3339[:10]`). -/
def mYMD (l : List Char) : Bool :=
  (do
    let (y, r1) ← readFixed 4 l
    let r2 ← litC 45 r1
    let (m, r3) ← readFixed 2 r2
    let r4 ← litC 45 r3
    let (d, r5) ← readFixed 2 r4
    if r5 = [] ∧ validYMD y m d then some () else none).isSome

/-- Layout `01/02/2006`. -/
def mMDYslash (l : List Char) : Bool :=
  (do
    let (m, r1) ← readFixed 2 l
    let r2 ← litC 47 r1
    let (d, r3) ← readFixed 2 r2
    let r4 ← litC 47 r3
    let (y, r5) ← readFixed 4 r4
    if r5 = [] ∧ validYMD y m d then some () else none).isSome

/-- Layout `1/2/2006`. -/
def mMDY12date (l : List Char) : Bool :=
  (do
    let (m, r1) ← readNum12 l
    let r2 ← litC 47 r1
    let (d, r3) ← readNum12 r2
    let r4 ← litC 47 r3
    let (y, r5) ← readFixed 4 r4
    if r5 = [] ∧ validYMD y m d then some () else none).isSome

/-- Layout `2006/01/02`. -/
def mYMDslash (l : List Char) : Bool :=
  (do
    let (y, r1) ← readFixed 4 l
    let r2 ← litC 47 r1
    let (m, r3) ← readFixed 2 r2
    let r4 ← litC 47 r3
    let (d, r5) ← readFixed 2 r4
    if r5 = [] ∧ validYMD y m d then some () else none).isSome

/-- Layout `Jan 2, 2006`. -/
def mMonDY (l : List Char) : Bool :=
  (do
    let (m, r1) ← readMon3 l
    let r2 ← litC 32 r1
    let (d, r3) ← readNum12 r2
    let r4 ← litC 44 r3
    let r5 ← litC 32 r4
    let (y, r6) ← readFixed 4 r5
    if r6 = [] ∧ validYMD y m d then some () else none).isSome

/-- Layout `2-Jan-2006`. -/
def mDMonY (l : List Char) : Bool :=
  (do
    let (d, r1) ← readNum12 l
    let r2 ← litC 45 r1
    let (m, r3) ← readMon3 r2
    let r4 ← litC 45 r3
    let (y, r5) ← readFixed 4 r4
    if r5 = [] ∧ validYMD y m d then some () else none).isSome

/-- The strict RFC 3339 parser used by Go for the `RFC3339` and `RFC3339Nano`
layout constants: `2006-01-02T15:04:05[.frac](Z|±hh:mm)`. -/
def mRFC3339 (l : List Char) : Bool :=
  (do
    let (y, r1) ← readFixed 4 l
    let r2 ← litC 45 r1
    let (m, r3) ← readFixed 2 r2
    let r4 ← litC 45 r3
    let (d, r5) ← readFixed 2 r4
    let r6 ← litC 84 r5
    let (hh, r7) ← readFixed 2 r6
    let r8 ← litC 58 r7
    let (mi, r9) ← readFixed 2 r8
    let r10 ← litC 58 r9
    let (ss, r11) ← readFixed 2 r10
    let r12 := skipFrac r11
    let zoneOK : Bool :=
      match r12 with
      | [z] => z.toNat = 90 ∨ z.toNat = 122
      | sgn :: rest =>
        (sgn.toNat = 43 ∨ sgn.toNat = 45) &&
        ((do
          let (zh, q1) ← readFixed 2 rest
          let q2 ← litC 58 q1
          let (zm, q3) ← readFixed 2 q2
          if q3 = [] ∧ zh ≤ 23 ∧ zm ≤ 59 then some () else none).isSome)
      | [] => false
    if zoneOK ∧ validYMD y m d ∧ hh ≤ 23 ∧ mi ≤ 59 ∧ ss ≤ 59 then some () else none).isSome

/-- Layouts `2006-01-02 15:04:05` and `2006-01-02T15:04:05` (parameterised by
the separator's code point). -/
def mYMD_HMS (sep : Nat) (l : List Char) : Bool :=
  (do
    let (y, r1) ← readFixed 4 l
    let r2 ← litC 45 r1
    let (m, r3) ← readFixed 2 r2
    let r4 ← litC 45 r3
    let (d, r5) ← readFixed 2 r4
    let r6 ← litC sep r5
    let (hh, r7) ← readNum12 r6
    let r8 ← litC 58 r7
    let (mi, r9) ← readFixed 2 r8
    let r10 ← litC 58 r9
    let (ss, r11) ← readFixed 2 r10
    let r12 := skipFrac r11
    if r12 = [] ∧ validYMD y m d ∧ hh ≤ 23 ∧ mi ≤ 59 ∧ ss ≤ 59 then some () else none).isSome

/-- Layout `01/02/2006 15:04:05`. -/
def mMDY_HMS (l : List Char) : Bool :=
  (do
    let (m, r1) ← readFixed 2 l
    let r2 ← litC 47 r1
    let (d, r3) ← readFixed 2 r2
    let r4 ← litC 47 r3
    let (y, r5) ← readFixed 4 r4
    let r6 ← litC 32 r5
    let (hh, r7) ← readNum12 r6
    let r8 ← litC 58 r7
    let (mi, r9) ← readFixed 2 r8
    let r10 ← litC 58 r9
    let (ss, r11) ← readFixed 2 r10
    let r12 := skipFrac r11
    if r12 = [] ∧ validYMD y m d ∧ hh ≤ 23 ∧ mi ≤ 59 ∧ ss ≤ 59 then some () else none).isSome

/-- Layout `1/2/2006 15:04:05`. -/
def mMDY12_HMS (l : List Char) : Bool :=
  (do
    let (m, r1) ← readNum12 l
    let r2 ← litC 47 r1
    let (d, r3) ← readNum12 r2
    let r4 ← litC 47 r3
    let (y, r5) ← readFixed 4 r4
    let r6 ← litC 32 r5
    let (hh, r7) ← readNum12 r6
    let r8 ← litC 58 r7
    let (mi, r9) ← readFixed 2 r8
    let r10 ← litC 58 r9
    let (ss, r11) ← readFixed 2 r10
    let r12 := skipFrac r11
    if r12 = [] ∧ validYMD y m d ∧ hh ≤ 23 ∧ mi ≤ 59 ∧ ss ≤ 59 then some () else none).isSome

/-- Layout `Jan 2, 2006 15:04:05`. -/
def mMonDY_HMS (l : List Char) : Bool :=
  (do
    let (m, r1) ← readMon3 l
    let r2 ← litC 32 r1
    let (d, r3) ← readNum12 r2
    let r4 ← litC 44 r3
    let r5 ← litC 32 r4
    let (y, r6) ← readFixed 4 r5
    let r7 ← litC 32 r6
    let (hh, r8) ← readNum12 r7
    let r9 ← litC 58 r8
    let (mi, r10) ← readFixed 2 r9
    let r11 ← litC 58 r10
    let (ss, r12) ← readFixed 2 r11
    let r13 := skipFrac r12
    if r13 = [] ∧ validYMD y m d ∧ hh ≤ 23 ∧ mi ≤ 59 ∧ ss ≤ 59 then some () else none).isSome

/-- Layout `Jan 2, 2006 3:04:05 PM` (12-hour clock, `PM` token: the values
`PM`/`AM` exactly, per Go's `stdPM`). -/
def mMonDY_HMS12_PM (l : List Char) : Bool :=
  (do
    let (m, r1) ← readMon3 l
    let r2 ← litC 32 r1
    let (d, r3) ← readNum12 r2
    let r4 ← litC 44 r3
    let r5 ← litC 32 r4
    let (y, r6) ← readFixed 4 r5
    let r7 ← litC 32 r6
    let (hh, r8) ← readNum12 r7
    let r9 ← litC 58 r8
    let (mi, r10) ← readFixed 2 r9
    let r11 ← litC 58 r10
    let (ss, r12) ← readFixed 2 r11
    let r13 := skipFrac r12
    let r14 ← litC 32 r13
    let pmOK : Bool :=
      match r14 with
      | [p, mch] => (p.toNat = 80 ∨ p.toNat = 65) ∧ mch.toNat = 77
      | _ => false
    if pmOK ∧ validYMD y m d ∧ hh ≤ 12 ∧ mi ≤ 59 ∧ ss ≤ 59 then some () else none).isSome

/-- Layout `2006-01-02 15:04` (no seconds field, hence no fractional part). -/
def mYMD_HM (l : List Char) : Bool :=
  (do
    let (y, r1) ← readFixed 4 l
    let r2 ← litC 45 r1
    let (m, r3) ← readFixed 2 r2
    let r4 ← litC 45 r3
    let (d, r5) ← readFixed 2 r4
    let r6 ← litC 32 r5
    let (hh, r7) ← readNum12 r6
    let r8 ← litC 58 r7
    let (mi, r9) ← readFixed 2 r8
    if r9 = [] ∧ validYMD y m d ∧ hh ≤ 23 ∧ mi ≤ 59 then some () else none).isSome

/-- Layout `01/02/2006 12:00`.  Go lexes `12` not as a token but as the
non-padded month token `1` followed by the non-padded day token `2`, and `:00`
as three literal characters; the later month/day readings overwrite the
earlier ones, and only the final values are range-checked. -/
def mWeird (l : List Char) : Bool :=
  (do
    let (_, r1) ← readFixed 2 l
    let r2 ← litC 47 r1
    let (_, r3) ← readFixed 2 r2
    let r4 ← litC 47 r3
    let (y, r5) ← readFixed 4 r4
    let r6 ← litC 32 r5
    let (m2, r7) ← readNum12 r6
    let (d2, r8) ← readNum12 r7
    let r9 ← litC 58 r8
    let r10 ← litC 48 r9
    let r11 ← litC 48 r10
    if r11 = [] ∧ validYMD y m2 d2 then some () else none).isSome

/-! ### The layout lists of the source -/

/-- `InsertData`'s `DATE` layouts (internal/repositories/repository.go):
`"2006-01-02"`, `"01/02/2006"`, `"2006/01/02"`, `"Jan 2, 2006"`,
`"2-Jan-2006"`, `time.RFC3339[:10]` (= `"2006-01-02"` again).  A value is
accepted iff some layout matches (first match wins, which for the success
predicate is the disjunction). -/
def insertDateMatches (v : String) : Bool :=
  mYMD v.data || mMDYslash v.data || mYMDslash v.data || mMonDY v.data || mDMonY v.data

/-- `InsertData`'s `TIMESTAMP`/`DATETIME` layouts: `time.RFC3339`,
`time.RFC3339Nano`, `"2006-01-02 15:04:05"`, `"2006-01-02T15:04:05Z07:00"`
(the `RFC3339` constant again), `"2006-01-02T15:04:05"`,
`"01/02/2006 15:04:05"`, `"Jan 2, 2006 15:04:05"`. -/
def insertTSMatches (v : String) : Bool :=
  mRFC3339 v.data || mYMD_HMS 32 v.data || mYMD_HMS 84 v.data ||
  mMDY_HMS v.data || mMonDY_HMS v.data

/-- `InferSchemaFromPreview`'s timestamp layouts (internal/services/csv.go):
`time.RFC3339`, `"2006-01-02 15:04:05"`, `"2006-01-02T15:04:05"`,
`"2006-01-02T15:04:05Z07:00"`, `"01/02/2006 15:04:05"`,
`"1/2/2006 15:04:05"`, `"Jan 2, 2006 3:04:05 PM"`, `"2006-01-02 15:04"`,
`"01/02/2006 12:00"`. -/
def inferTSMatches (v : String) : Bool :=
  mRFC3339 v.data || mYMD_HMS 32 v.data || mYMD_HMS 84 v.data ||
  mMDY_HMS v.data || mMDY12_HMS v.data || mMonDY_HMS12_PM v.data ||
  mYMD_HM v.data || mWeird v.data

/-- `InferSchemaFromPreview`'s date layouts: `"2006-01-02"`, `"01/02/2006"`,
`"1/2/2006"`, `"2006/01/02"`, `"Jan 2, 2006"`, `"2-Jan-2006"`. -/
def inferDateMatches (v : String) : Bool :=
  mYMD v.data || mMDYslash v.data || mMDY12date v.data || mYMDslash v.data ||
  mMonDY v.data || mDMonY v.data

/-! ## Data model -/

/-- `models.ColumnDefinition` (fields `Name`, `Type`). -/
structure ColumnDefinition where
  name : String
  typ : String
deriving DecidableEq, Repr

/-- `models.ColumnInfo` (fields `Name`, `DataType`), used by the repository
variant with `ValidateTable`. -/
structure ColumnInfo where
  name : String
  dataType : String
deriving DecidableEq, Repr

/-! ## Go `strings` wrappers on `String` -/

def goTrimSpaceStr (s : String) : String := String.mk (trimSpaceL s.data)

def goToLowerStr (s : String) : String := String.mk (s.data.map goLowerChar)

def goToUpperStr (s : String) : String := String.mk (s.data.map goUpperChar)

/-! ## Schema inference — `CSVService.InferSchemaFromPreview`
(internal/services/csv.go).

Per column, five "still possible" flags are narrowed over every cell of the
preview rows; a row shorter than the column index is skipped, as is an
empty (after trimming) cell.  The final type is chosen by the priority
BOOLEAN, INTEGER, REAL, TIMESTAMP, DATE, TEXT, with TEXT also used when the
column has no non-empty cell. -/

/-- The inference boolean token set:
`true/false/t/f/yes/no/0/1`, case-insensitive. -/
def inferBoolToken (valStr : String) : Bool :=
  let lcVal := goToLowerStr valStr
  lcVal == "true" || lcVal == "false" || lcVal == "t" || lcVal == "f" ||
  lcVal == "yes" || lcVal == "no" || lcVal == "0" || lcVal == "1"

structure InferFlags where
  isStillBoolean : Bool
  isStillInteger : Bool
  isStillReal : Bool
  isStillDate : Bool
  isStillTimestamp : Bool
  hasNonEmpty : Bool
deriving Repr

def initFlags : InferFlags := ⟨true, true, true, true, true, false⟩

/-- One preview row's contribution to a column's flags. -/
def stepFlags (colIdx : Nat) (fl : InferFlags) (row : List String) : InferFlags :=
  match row[colIdx]? with
  | none => fl
  | some cell =>
    let valStr := goTrimSpaceStr cell
    if valStr = "" then fl
    else
      { isStillBoolean := fl.isStillBoolean && inferBoolToken valStr
        isStillInteger := fl.isStillInteger && goParseIntOk valStr
        isStillReal := fl.isStillReal && goParseFloatOk valStr
        isStillDate := fl.isStillDate && inferDateMatches valStr
        isStillTimestamp := fl.isStillTimestamp && inferTSMatches valStr
        hasNonEmpty := true }

/-- The final decision: "Order of preference: BOOLEAN, INTEGER, REAL,
TIMESTAMP, DATE, TEXT"; TEXT when the column has no non-empty sample value. -/
def decideType (fl : InferFlags) : String :=
  if fl.hasNonEmpty then
    if fl.isStillBoolean then "BOOLEAN"
    else if fl.isStillInteger then "INTEGER"
    else if fl.isStillReal then "REAL"
    else if fl.isStillTimestamp then "TIMESTAMP"
    else if fl.isStillDate then "DATE"
    else "TEXT"
  else "TEXT"

def inferColumnType (colIdx : Nat) (previewRows : List (List String)) : String :=
  decideType (previewRows.foldl (stepFlags colIdx) initFlags)

/-- `CSVService.InferSchemaFromPreview`: column names are the original CSV
headers; types are inferred per column from the preview rows. -/
def InferSchemaFromPreview (headers : List String) (previewRows : List (List String)) :
    List ColumnDefinition :=
  headers.mapIdx fun colIdx headerName => ⟨headerName, inferColumnType colIdx previewRows⟩

/-! ### Cell predicates for reasoning about the flag fold -/

/-- The cell at `colIdx` exists and is non-empty after trimming. -/
def nonEmptyCell (colIdx : Nat) (row : List String) : Bool :=
  match row[colIdx]? with
  | none => false
  | some cell => goTrimSpaceStr cell ≠ ""

/-- The cell at `colIdx` is missing, empty, or parses as a 64-bit integer. -/
def intCompatCell (colIdx : Nat) (row : List String) : Bool :=
  match row[colIdx]? with
  | none => true
  | some cell => goTrimSpaceStr cell = "" || goParseIntOk (goTrimSpaceStr cell)

/-- The cell at `colIdx` is missing, empty, or a boolean token. -/
def boolCompatCell (colIdx : Nat) (row : List String) : Bool :=
  match row[colIdx]? with
  | none => true
  | some cell => goTrimSpaceStr cell = "" || inferBoolToken (goTrimSpaceStr cell)

theorem foldFlags_int (colIdx : Nat) (rows : List (List String)) (fl : InferFlags) :
    (rows.foldl (stepFlags colIdx) fl).isStillInteger =
      (fl.isStillInteger && rows.all (intCompatCell colIdx)) := by
  induction rows generalizing fl with
  | nil => simp
  | cons r rows ih =>
      rw [List.foldl_cons, ih, List.all_cons, ← Bool.and_assoc]
      congr 1
      rw [stepFlags, intCompatCell]
      cases hg : r[colIdx]? with
      | none => simp
      | some cell =>
          by_cases he : goTrimSpaceStr cell = ""
          · simp [he]
          · simp [he]

theorem foldFlags_bool (colIdx : Nat) (rows : List (List String)) (fl : InferFlags) :
    (rows.foldl (stepFlags colIdx) fl).isStillBoolean =
      (fl.isStillBoolean && rows.all (boolCompatCell colIdx)) := by
  induction rows generalizing fl with
  | nil => simp
  | cons r rows ih =>
      rw [List.foldl_cons, ih, List.all_cons, ← Bool.and_assoc]
      congr 1
      rw [stepFlags, boolCompatCell]
      cases hg : r[colIdx]? with
      | none => simp
      | some cell =>
          by_cases he : goTrimSpaceStr cell = ""
          · simp [he]
          · simp [he]

theorem foldFlags_nonEmpty (colIdx : Nat) (rows : List (List String)) (fl : InferFlags) :
    (rows.foldl (stepFlags colIdx) fl).hasNonEmpty =
      (fl.hasNonEmpty || rows.any (nonEmptyCell colIdx)) := by
  induction rows generalizing fl with
  | nil => simp
  | cons r rows ih =>
      rw [List.foldl_cons, ih, List.any_cons, ← Bool.or_assoc]
      congr 1
      rw [stepFlags, nonEmptyCell]
      cases hg : r[colIdx]? with
      | none => simp
      | some cell =>
          by_cases he : goTrimSpaceStr cell = ""
          · simp [he]
          · simp [he]

/-- C3 (counterexample): the claim "every non-empty cell parses as int64 ⇒
INTEGER" fails on the code.  In the single-cell column `["1"]` every non-empty
cell parses as a 64-bit integer, yet inference assigns BOOLEAN, because `1` is
also a boolean token and BOOLEAN has higher priority than INTEGER. -/
theorem claim_C3_counterexample :
    goParseIntOk "1" = true ∧
    InferSchemaFromPreview ["a"] [["1"]] = [⟨"a", "BOOLEAN"⟩] := by
  constructor
  · decide
  · decide

/-- C3 (amended): if a column has at least one non-empty sample cell, every
non-empty cell parses as a 64-bit signed integer, and at least one non-empty
cell is not a boolean token (so the higher-priority BOOLEAN candidate is
eliminated), then inference assigns INTEGER to that column. -/
theorem claim_C3_amended (headers : List String) (previewRows : List (List String))
    (colIdx : Nat) (hidx : colIdx < headers.length)
    (hne : previewRows.any (nonEmptyCell colIdx) = true)
    (hint : previewRows.all (intCompatCell colIdx) = true)
    (hnb : previewRows.any (fun r => !(boolCompatCell colIdx r)) = true) :
    (InferSchemaFromPreview headers previewRows)[colIdx]? =
      some ⟨headers.get ⟨colIdx, hidx⟩, "INTEGER"⟩ := by
  rw [InferSchemaFromPreview, List.getElem?_mapIdx, List.getElem?_eq_getElem hidx]
  have hbool : previewRows.all (boolCompatCell colIdx) = false := by
    rw [List.any_eq_true] at hnb
    obtain ⟨r, hr, hfail⟩ := hnb
    rw [Bool.not_eq_true'] at hfail
    rw [Bool.eq_false_iff]
    intro hall
    rw [List.all_eq_true] at hall
    rw [hall r hr] at hfail
    simp at hfail
  have hcalc : inferColumnType colIdx previewRows = "INTEGER" := by
    rw [inferColumnType, decideType, foldFlags_nonEmpty, foldFlags_bool, foldFlags_int,
      hne, hint, hbool]
    simp [initFlags]
  simp only [Option.map_some']
  rw [hcalc]
  rfl

/-- Witness for `claim_C3_amended` at the column `["1", "2"]`: all cells parse
as integers and `2` is not a boolean token, so INTEGER is inferred. -/
theorem claim_C3_amended_witness :
    (InferSchemaFromPreview ["a"] [["1"], ["2"]])[0]? = some ⟨"a", "INTEGER"⟩ :=
  claim_C3_amended ["a"] [["1"], ["2"]] 0 (by decide) (by decide) (by decide) (by decide)

/-! ## The type-compatibility relation — `isPostgresTypeCompatible`
(repository layer, old-generation repositories file):

```go
dbPgType = strings.ToLower(dbPgType)
csvPgType = strings.ToLower(csvPgType)
if csvPgType == dbPgType { return true }
switch csvPgType {
case "int":    bigint | numeric | float8
case "float8": numeric | double precision
case "date":   timestamp | timestamp without time zone
case "text":   HasPrefix(dbPgType, "varchar") | text
}
return false
```

The engine's own source-side tokens come from `mapInferredTypeToPostgres`
(`"INT"`, `"FLOAT8"`, `"BOOLEAN"`, `"DATE"`, `"TEXT"`), so the logical type
INTEGER is the token `int` on the source side; target-side tokens are the
catalog's `data_type` names (`integer`, `bigint`, `numeric`, …). -/

/-- Go `strings.HasPrefix` on the character-list representation. -/
def strHasPrefix (s pre : String) : Bool := pre.data.isPrefixOf s.data

def isPostgresTypeCompatible (csvPgType dbPgType : String) : Bool :=
  let db := goToLowerStr dbPgType
  let csv := goToLowerStr csvPgType
  if csv = db then true
  else if csv = "int" then db = "bigint" || db = "numeric" || db = "float8"
  else if csv = "float8" then db = "numeric" || db = "double precision"
  else if csv = "date" then db = "timestamp" || db = "timestamp without time zone"
  else if csv = "text" then strHasPrefix db "varchar" || db = "text"
  else false

/-- C4: the compatibility relation is directional, not symmetric: identical
type tokens are always compatible; source INTEGER (`int`) is compatible with
target BIGINT; source TEXT is not compatible with target INTEGER; source
NUMERIC is not compatible with target INTEGER even though source INTEGER is
compatible with target NUMERIC. -/
theorem claim_C4_compat_directional :
    (∀ s : String, isPostgresTypeCompatible s s = true) ∧
    isPostgresTypeCompatible "int" "bigint" = true ∧
    isPostgresTypeCompatible "text" "integer" = false ∧
    isPostgresTypeCompatible "numeric" "integer" = false ∧
    isPostgresTypeCompatible "int" "numeric" = true := by
  refine ⟨?_, by decide, by decide, by decide, by decide⟩
  intro s
  simp [isPostgresTypeCompatible]

/-! ## Schema validation — `ValidateTable`
(repository layer, old-generation repositories file).

The function queries `information_schema.columns` for `(column_name,
data_type)` pairs; that query result is the `dbCols` parameter here.  Note the
order of checks in the source: the empty/absent-table check first, then the
per-column presence and type-compatibility loop, and the column-count
comparison only after the loop. -/

inductive TableValidationError where
  | noTable : TableValidationError
  | columnNotFound : String → TableValidationError
  | typeMismatch : String → String → String → TableValidationError
  | countMismatch : Nat → Nat → TableValidationError
deriving DecidableEq, Repr

/-- Lookup in `dbColMap`: Go map insertion makes later duplicate column names
overwrite earlier ones. -/
def lookupLast (l : List (String × String)) (k : String) : Option String :=
  (l.reverse.find? (fun p => p.1 = k)).map (·.2)

/-- The per-column loop of `ValidateTable`: the first missing or incompatible
column aborts the loop with its error. -/
def checkColumns : List ColumnInfo → List (String × String) → Option TableValidationError
  | [], _ => none
  | c :: rest, dbCols =>
    match lookupLast dbCols c.name with
    | none => some (.columnNotFound c.name)
    | some dbType =>
      if isPostgresTypeCompatible c.dataType dbType then checkColumns rest dbCols
      else some (.typeMismatch c.name c.dataType dbType)

/-- `repository.ValidateTable`, with the catalog query result passed in. -/
def ValidateTable (csvHeaders : List ColumnInfo) (dbCols : List (String × String)) :
    Option TableValidationError :=
  if dbCols = [] then some .noTable
  else
    match checkColumns csvHeaders dbCols with
    | some e => some e
    | none =>
      if csvHeaders.length ≠ dbCols.length then
        some (.countMismatch csvHeaders.length dbCols.length)
      else none

/-- C5 (counterexample): a 3-source-column versus 2-target-column pair with
distinct names yields `columnNotFound "c"`, not the claimed
`ColumnCountMismatch`, because the source runs the presence/type loop before
the cardinality check. -/
theorem claim_C5_counterexample :
    ValidateTable [⟨"a", "text"⟩, ⟨"b", "text"⟩, ⟨"c", "text"⟩]
      [("a", "text"), ("b", "text")] = some (.columnNotFound "c") := by
  decide

/-- C5 (amended): validation always rejects schemas with differing column
counts, but the cardinality rule is evaluated *after* presence and
type-compatibility: `ColumnCountMismatch` surfaces only when every source
column passes presence and compatibility (e.g. with duplicated source names);
otherwise the presence/type error of the first offending column is returned. -/
theorem claim_C5_amended :
    (∀ (csvHeaders : List ColumnInfo) (dbCols : List (String × String)),
      csvHeaders.length ≠ dbCols.length → ValidateTable csvHeaders dbCols ≠ none) ∧
    (∀ (csvHeaders : List ColumnInfo) (dbCols : List (String × String)),
      dbCols ≠ [] → checkColumns csvHeaders dbCols = none →
      csvHeaders.length ≠ dbCols.length →
      ValidateTable csvHeaders dbCols =
        some (.countMismatch csvHeaders.length dbCols.length)) := by
  constructor
  · intro csvHeaders dbCols hlen
    rw [ValidateTable]
    by_cases hdb : dbCols = []
    · rw [if_pos hdb]
      simp
    · rw [if_neg hdb]
      cases hchk : checkColumns csvHeaders dbCols with
      | some e => simp
      | none =>
          rw [if_pos hlen]
          simp
  · intro csvHeaders dbCols hdb hchk hlen
    rw [ValidateTable, if_neg hdb, hchk, if_pos hlen]

/-- Witness for `claim_C5_amended`: the 3-vs-2 pair of the counterexample is
rejected (first conjunct), and a 3-vs-2 pair whose source names all exist in
the target (via a duplicate) yields the count mismatch (second conjunct). -/
theorem claim_C5_amended_witness :
    ValidateTable [⟨"a", "text"⟩, ⟨"b", "text"⟩, ⟨"c", "text"⟩]
      [("a", "text"), ("b", "text")] ≠ none ∧
    ValidateTable [⟨"a", "text"⟩, ⟨"a", "text"⟩, ⟨"b", "text"⟩]
      [("a", "text"), ("b", "text")] = some (.countMismatch 3 2) :=
  ⟨claim_C5_amended.1 _ _ (by decide),
   claim_C5_amended.2 [⟨"a", "text"⟩, ⟨"a", "text"⟩, ⟨"b", "text"⟩]
     [("a", "text"), ("b", "text")] (by decide) (by decide) (by decide)⟩

/-! ## Value coercion and row insertion — `DBRepository.InsertData`
(internal/repositories/repository.go).

Per record: a cell-count check against the column definitions (returning the
`data_mismatch` error with the 1-based row index), then per-cell coercion by
the upper-cased declared type, then the `INSERT` execution.  The model returns
the list of converted rows that were executed; database-side execution errors
(constraint violations, wire failures) are environmental and not modelled.
Note the `DATE`/`TIMESTAMP` branches: when no layout matches, the source
stores the trimmed raw string (`values[j] = cleanValStr`) instead of
reporting a conversion error. -/

/-- A converted cell value as bound to the `INSERT` statement.  For matched
`DATE`/`TIMESTAMP` cells Go re-formats the parsed time (`t.Format(...)`);
the constructors `dateParsed`/`tsParsed` record the accepted raw string and
abstract the reformatting. -/
inductive SQLValue where
  | int : Int → SQLValue
  | float : String → SQLValue
  | dateParsed : String → SQLValue
  | tsParsed : String → SQLValue
  | bool : Bool → SQLValue
  | str : String → SQLValue
deriving DecidableEq, Repr

/-- The errors `InsertData` can report (database execution errors aside):
`invalid_operation_insert_data`, `data_mismatch` (1-based row index, actual
and expected cell counts), and the wrapped `ErrTypeConversion` ("Row %d,
Column '%s': Failed to parse '%s' as %s"). -/
inductive InsertError where
  | noColumnDefs : InsertError
  | dataMismatch : Nat → Nat → Nat → InsertError
  | typeConversion : Nat → String → String → String → InsertError
deriving DecidableEq, Repr

/-- `case "INT", "INTEGER", "BIGINT"`. -/
def isIntFamily (t : String) : Bool := t = "INT" || t = "INTEGER" || t = "BIGINT"

/-- `case "DECIMAL", "NUMERIC", "REAL", "FLOAT", "DOUBLE"`. -/
def isFloatFamily (t : String) : Bool :=
  t = "DECIMAL" || t = "NUMERIC" || t = "REAL" || t = "FLOAT" || t = "DOUBLE"

def insertBoolTrue (lv : String) : Bool := lv = "true" || lv = "1" || lv = "yes" || lv = "t"

def insertBoolFalse (lv : String) : Bool := lv = "false" || lv = "0" || lv = "no" || lv = "f"

/-- One cell's coercion: `none` for a trimmed-empty cell, otherwise the parsed
value per declared type.  The error carries the raw value and the (upper-cased)
target type; row and column context are added by the caller. -/
def convertValue (colTypeRaw : String) (valStr : String) :
    Except (String × String) (Option SQLValue) :=
  let colType := goToUpperStr colTypeRaw
  let cleanValStr := goTrimSpaceStr valStr
  if cleanValStr = "" then .ok none
  else if isIntFamily colType then
    match goParseInt? cleanValStr with
    | some n => .ok (some (.int n))
    | none => .error (valStr, colType)
  else if isFloatFamily colType then
    if goParseFloatOk cleanValStr then .ok (some (.float cleanValStr))
    else .error (valStr, colType)
  else if colType = "DATE" then
    if insertDateMatches cleanValStr then .ok (some (.dateParsed cleanValStr))
    else .ok (some (.str cleanValStr))
  else if colType = "TIMESTAMP" ∨ colType = "DATETIME" then
    if insertTSMatches cleanValStr then .ok (some (.tsParsed cleanValStr))
    else .ok (some (.str cleanValStr))
  else if colType = "BOOLEAN" then
    let lowerVal := goToLowerStr cleanValStr
    if insertBoolTrue lowerVal then .ok (some (.bool true))
    else if insertBoolFalse lowerVal then .ok (some (.bool false))
    else .error (valStr, colType)
  else .ok (some (.str valStr))

/-- The per-cell loop over one record; the first failing cell aborts with
`(columnName, rawValue, targetType)`. -/
def convertCells : List ColumnDefinition → List String →
    Except (String × String × String) (List (Option SQLValue))
  | c :: cs, v :: vs =>
    match convertValue c.typ v with
    | .error p => .error (c.name, p.1, p.2)
    | .ok val =>
      match convertCells cs vs with
      | .error e => .error e
      | .ok vals => .ok (val :: vals)
  | _, _ => .ok []

/-- The row loop of `InsertData`, carrying the 0-based index of the first row
in `records`. -/
def insertRows (cols : List ColumnDefinition) : Nat → List (List String) →
    Except InsertError (List (List (Option SQLValue)))
  | _, [] => .ok []
  | i, record :: rest =>
    if record.length ≠ cols.length then
      .error (.dataMismatch (i + 1) record.length cols.length)
    else
      match convertCells cols record with
      | .error e => .error (.typeConversion (i + 1) e.1 e.2.1 e.2.2)
      | .ok vals =>
        match insertRows cols (i + 1) rest with
        | .error e => .error e
        | .ok out => .ok (vals :: out)

/-- `DBRepository.InsertData`.  The table name is only interpolated into the
SQL text; it is kept as a parameter for signature fidelity. -/
def InsertData (tableName : String) (cols : List ColumnDefinition)
    (records : List (List String)) : Except InsertError (List (List (Option SQLValue))) :=
  if records = [] then .ok []
  else if cols = [] then .error .noColumnDefs
  else insertRows cols 0 records

/-- C10: inserting an empty list of records succeeds and executes no
statements (the source returns before even preparing the `INSERT`), for every
table name and column-definition list — a zero-row load is a no-op, not a
failure. -/
theorem claim_C10_empty_insert_noop (tableName : String) (cols : List ColumnDefinition) :
    InsertData tableName cols [] = .ok [] := rfl

theorem insertRows_ok_lengths {cols : List ColumnDefinition} :
    ∀ {records : List (List String)} {i : Nat} {out : List (List (Option SQLValue))},
      insertRows cols i records = .ok out → ∀ r ∈ records, r.length = cols.length := by
  intro records
  induction records with
  | nil => intro i out _ r hr; simp at hr
  | cons rec rest ih =>
      intro i out hok r hr
      rw [insertRows] at hok
      by_cases hlen : rec.length ≠ cols.length
      · rw [if_pos hlen] at hok
        cases hok
      · rw [if_neg hlen] at hok
        rcases List.mem_cons.mp hr with h | h
        · subst h
          omega
        · cases hcv : convertCells cols rec with
          | error e => rw [hcv] at hok; cases hok
          | ok vals =>
              rw [hcv] at hok
              cases hrest : insertRows cols (i + 1) rest with
              | error e => rw [hrest] at hok; cases hok
              | ok out2 => exact ih hrest r h

theorem insertRows_first_mismatch {cols : List ColumnDefinition} :
    ∀ (records : List (List String)) (i0 i : Nat) (r : List String),
      records[i]? = some r → r.length ≠ cols.length →
      (∀ j rj, j < i → records[j]? = some rj →
        rj.length = cols.length ∧ (convertCells cols rj).isOk = true) →
      insertRows cols i0 records = .error (.dataMismatch (i0 + i + 1) r.length cols.length) := by
  intro records
  induction records with
  | nil => intro i0 i r hget; simp at hget
  | cons rec rest ih =>
      intro i0 i r hget hlen hpre
      cases i with
      | zero =>
          simp only [List.getElem?_cons_zero, Option.some.injEq] at hget
          subst hget
          rw [insertRows, if_pos hlen]
      | succ i' =>
          simp only [List.getElem?_cons_succ] at hget
          obtain ⟨h0len, h0ok⟩ := hpre 0 rec (by omega) (by simp)
          rw [insertRows, if_neg (by omega)]
          cases hcv : convertCells cols rec with
          | error e => rw [hcv] at h0ok; simp [Except.isOk, Except.toBool] at h0ok
          | ok vals =>
              have hrec := ih (i0 + 1) i' r hget hlen ?_
              · rw [hrec]
                have : i0 + 1 + i' + 1 = i0 + (i' + 1) + 1 := by omega
                rw [this]
              · intro j rj hj hjget
                exact hpre (j + 1) rj (by omega) (by simpa using hjget)

/-- C9: during the authoritative full-file load (`DBRepository.InsertData`),
a data row whose cell count differs from the declared column count makes the
commit fail rather than being padded, truncated, or skipped: (1) a successful
insertion implies every record had exactly the declared number of cells, and
(2) the first such offending row (all earlier rows being well-formed and
convertible) surfaces as the `data_mismatch` error carrying its 1-based row
index. -/
theorem claim_C9_row_width_mismatch_fails :
    (∀ (tableName : String) (cols : List ColumnDefinition) (records : List (List String)) out,
      InsertData tableName cols records = .ok out → cols ≠ [] →
      ∀ r ∈ records, r.length = cols.length) ∧
    (∀ (tableName : String) (cols : List ColumnDefinition) (records : List (List String))
      (i : Nat) (r : List String),
      cols ≠ [] → records[i]? = some r → r.length ≠ cols.length →
      (∀ j rj, j < i → records[j]? = some rj →
        rj.length = cols.length ∧ (convertCells cols rj).isOk = true) →
      InsertData tableName cols records = .error (.dataMismatch (i + 1) r.length cols.length)) := by
  constructor
  · intro tableName cols records out hok hcols r hr
    rw [InsertData] at hok
    by_cases hrec : records = []
    · subst hrec
      simp at hr
    · rw [if_neg hrec, if_neg hcols] at hok
      exact insertRows_ok_lengths hok r hr
  · intro tableName cols records i r hcols hget hlen hpre
    have hrec : records ≠ [] := by
      intro hnil
      rw [hnil] at hget
      simp at hget
    rw [InsertData, if_neg hrec, if_neg hcols]
    have := @insertRows_first_mismatch cols records 0 i r hget hlen hpre
    simpa using this

/-- Witness for `claim_C9_row_width_mismatch_fails`: a 2-cell row against a
1-column schema fails with the 1-based `data_mismatch` error. -/
theorem claim_C9_witness :
    InsertData "t" [⟨"a", "TEXT"⟩] [["x", "y"]] = .error (.dataMismatch 1 2 1) :=
  claim_C9_row_width_mismatch_fails.2 "t" [⟨"a", "TEXT"⟩] [["x", "y"]] 0 ["x", "y"]
    (by decide) rfl (by decide) (fun j rj hj _ => absurd hj (by omega))

theorem convertCells_ok_cells {cols : List ColumnDefinition} :
    ∀ {record : List String} {vals}, convertCells cols record = .ok vals →
      ∀ (j : Nat) (c : ColumnDefinition) (v : String), cols[j]? = some c →
        record[j]? = some v → (convertValue c.typ v).isOk = true := by
  induction cols with
  | nil =>
      intro record vals h j c v hc hv
      simp at hc
  | cons c0 cs ih =>
      intro record vals h j c v hc hv
      cases record with
      | nil => simp at hv
      | cons v0 vs =>
          rw [convertCells] at h
          cases hcv0 : convertValue c0.typ v0 with
          | error p => rw [hcv0] at h; cases h
          | ok val =>
              rw [hcv0] at h
              cases hrest : convertCells cs vs with
              | error e => rw [hrest] at h; cases h
              | ok vals2 =>
                  cases j with
                  | zero =>
                      simp only [List.getElem?_cons_zero, Option.some.injEq] at hc hv
                      subst hc
                      subst hv
                      rw [hcv0]
                      rfl
                  | succ j' =>
                      simp only [List.getElem?_cons_succ] at hc hv
                      exact ih hrest j' c v hc hv

theorem insertRows_ok_cells {cols : List ColumnDefinition} :
    ∀ {records : List (List String)} {i : Nat} {out},
      insertRows cols i records = .ok out →
      ∀ r ∈ records, ∃ vals, convertCells cols r = .ok vals := by
  intro records
  induction records with
  | nil => intro i out _ r hr; simp at hr
  | cons rec rest ih =>
      intro i out hok r hr
      rw [insertRows] at hok
      by_cases hlen : rec.length ≠ cols.length
      · rw [if_pos hlen] at hok
        cases hok
      · rw [if_neg hlen] at hok
        cases hcv : convertCells cols rec with
        | error e => rw [hcv] at hok; cases hok
        | ok vals =>
            rw [hcv] at hok
            cases hrest : insertRows cols (i + 1) rest with
            | error e => rw [hrest] at hok; cases hok
            | ok out2 =>
                rcases List.mem_cons.mp hr with h | h
                · subst h
                  exact ⟨vals, hcv⟩
                · exact ih hrest r h

/-- C2 (amended): at commit-time value coercion, a trimmed-empty cell is
stored as SQL `NULL` for every declared type; a non-empty cell that fails to
parse as the declared integer, float, or boolean type aborts the commit with
the type-conversion error carrying the raw value and target type (and, via
`InsertData`, the 1-based row index and column name); consequently no
unparseable non-empty integer/float/boolean value is ever part of a
successful insertion.  For DATE and TIMESTAMP, however, a cell matching no
layout is passed through to the store as the raw trimmed string instead of
raising a `TypeConversionError` (see `claim_C2_counterexample`). -/
theorem claim_C2_amended :
    (∀ ty v, goTrimSpaceStr v = "" → convertValue ty v = .ok none) ∧
    (∀ ty v, isIntFamily (goToUpperStr ty) = true → goTrimSpaceStr v ≠ "" →
      goParseInt? (goTrimSpaceStr v) = none →
      convertValue ty v = .error (v, goToUpperStr ty)) ∧
    (∀ ty v, isFloatFamily (goToUpperStr ty) = true → goTrimSpaceStr v ≠ "" →
      goParseFloatOk (goTrimSpaceStr v) = false →
      convertValue ty v = .error (v, goToUpperStr ty)) ∧
    (∀ ty v, goToUpperStr ty = "BOOLEAN" → goTrimSpaceStr v ≠ "" →
      insertBoolTrue (goToLowerStr (goTrimSpaceStr v)) = false →
      insertBoolFalse (goToLowerStr (goTrimSpaceStr v)) = false →
      convertValue ty v = .error (v, goToUpperStr ty)) ∧
    (∀ tableName cols records out, InsertData tableName cols records = .ok out →
      ∀ r ∈ records, ∀ (j : Nat) (c : ColumnDefinition) (v : String),
        cols[j]? = some c → r[j]? = some v → (convertValue c.typ v).isOk = true) := by
  refine ⟨?_, ?_, ?_, ?_, ?_⟩
  · intro ty v h
    simp only [convertValue]
    rw [if_pos h]
  · intro ty v hfam hne hparse
    simp only [convertValue]
    rw [if_neg hne, if_pos hfam, hparse]
  · intro ty v hfam hne hparse
    have hint : isIntFamily (goToUpperStr ty) = false := by
      simp only [isFloatFamily, Bool.or_eq_true, decide_eq_true_eq] at hfam
      rcases hfam with ((((h | h) | h) | h) | h) <;> rw [h] <;> decide
    simp only [convertValue]
    rw [if_neg hne, if_neg (by simp [hint]), if_pos hfam, if_neg (by simp [hparse])]
  · intro ty v hbool hne htrue hfalse
    simp [convertValue, hbool, hne, htrue, hfalse, isIntFamily, isFloatFamily]
  · intro tableName cols records out hok r hr j c v hc hv
    rw [InsertData] at hok
    by_cases hrec : records = []
    · subst hrec
      simp at hr
    · rw [if_neg hrec] at hok
      by_cases hcols : cols = []
      · rw [if_pos hcols] at hok
        cases hok
      · rw [if_neg hcols] at hok
        obtain ⟨vals, hvals⟩ := insertRows_ok_cells hok r hr
        exact convertCells_ok_cells hvals j c v hc hv

/-- C2 (counterexample): the claim "for every declared type, no unparseable
non-empty value is silently loaded" fails for DATE (and TIMESTAMP) columns:
the non-empty value `"notadate"` matches none of the DATE layouts, yet
`InsertData` succeeds and binds the raw string instead of failing with a
`TypeConversionError`. -/
theorem claim_C2_counterexample :
    goTrimSpaceStr "notadate" ≠ "" ∧
    insertDateMatches "notadate" = false ∧
    InsertData "t" [⟨"d", "DATE"⟩] [["notadate"]] = .ok [[some (.str "notadate")]] := by
  refine ⟨by decide, by decide, rfl⟩

/-- Witness for `claim_C2_amended` at concrete cells: an empty BOOLEAN cell,
an unparseable INTEGER cell, an unparseable REAL cell, and an unparseable
BOOLEAN cell. -/
theorem claim_C2_amended_witness :
    convertValue "BOOLEAN" "" = .ok none ∧
    convertValue "INTEGER" "abc" = .error ("abc", goToUpperStr "INTEGER") ∧
    convertValue "REAL" "x1" = .error ("x1", goToUpperStr "REAL") ∧
    convertValue "BOOLEAN" "maybe" = .error ("maybe", goToUpperStr "BOOLEAN") :=
  ⟨claim_C2_amended.1 "BOOLEAN" "" (by decide),
   claim_C2_amended.2.1 "INTEGER" "abc" (by decide) (by decide) (by decide),
   claim_C2_amended.2.2.1 "REAL" "x1" (by decide) (by decide) (by decide),
   claim_C2_amended.2.2.2.1 "BOOLEAN" "maybe" (by decide) (by decide) (by decide) (by decide)⟩

/-! ## The transactional commit flow — `AppHandlers.CommitCSV`
(internal/handlers, from `Beginx` to `Commit`).

The database is modelled as an association list from table names to
`(schema, rows)`.  The Go handler opens one transaction spanning the DDL
(`DropTable`/`CreateTable`, both executed on the transaction) and the
`InsertData` load, with `tx.Rollback()` deferred for every path on which the
local `err` is set, and `tx.Commit()` only after all operations succeed.
The model mirrors that structure directly: the transaction's workspace is
published only on the success path; every error path returns the original
state.  Environmental failures (`Beginx`, the `TableExists` catalog query,
DDL rejected by the store, `INSERT` execution errors) are outside the model;
`ReadFullCSV` happens before the transaction and is likewise out of scope. -/

structure TableState where
  schema : List ColumnDefinition
  rows : List (List (Option SQLValue))
deriving DecidableEq, Repr

/-- The visible database: an association list from table name to state. -/
abbrev DBState := List (String × TableState)

def tableExists (db : DBState) (name : String) : Bool := db.any (fun e => e.1 = name)

/-- `DROP TABLE IF EXISTS` on the transaction workspace. -/
def dropTable (db : DBState) (name : String) : DBState := db.filter (fun e => e.1 ≠ name)

/-- `CREATE TABLE` on the transaction workspace.  In `CommitCSV` creation is
only reached when the name is absent (either checked or just dropped), so the
store-side duplicate-name failure cannot occur on these paths. -/
def createTable (db : DBState) (name : String) (cols : List ColumnDefinition) : DBState :=
  db ++ [(name, ⟨cols, []⟩)]

/-- Append converted rows to the named table. -/
def appendRows (db : DBState) (name : String) (newRows : List (List (Option SQLValue))) :
    DBState :=
  db.map (fun e => if e.1 = name then (e.1, ⟨e.2.schema, e.2.rows ++ newRows⟩) else e)

/-- The user-visible errors of the commit flow (`ErrDataConflict` for create
on an existing table or append on a missing one, `invalid_action`, and any
error from the bulk load). -/
inductive CommitError where
  | conflictTableExists : String → CommitError
  | conflictNoTable : String → CommitError
  | invalidAction : String → CommitError
  | insertFailed : InsertError → CommitError
deriving DecidableEq, Repr

/-- `AppHandlers.CommitCSV` from `Beginx` onward: the result is the database
state visible after the handler returns, paired with the reported error (if
any).  On every error path the deferred rollback discards the transaction
workspace, so the original `db` is returned. -/
def CommitCSV (db : DBState) (tableName action : String) (cols : List ColumnDefinition)
    (records : List (List String)) : DBState × Option CommitError :=
  if tableExists db tableName then
    if action = "overwrite" then
      let wd := createTable (dropTable db tableName) tableName cols
      match InsertData tableName cols records with
      | .error e => (db, some (.insertFailed e))
      | .ok conv => (appendRows wd tableName conv, none)
    else if action = "append" then
      match InsertData tableName cols records with
      | .error e => (db, some (.insertFailed e))
      | .ok conv => (appendRows db tableName conv, none)
    else if action = "create" then (db, some (.conflictTableExists tableName))
    else (db, some (.invalidAction action))
  else
    if action = "append" then (db, some (.conflictNoTable tableName))
    else
      let wd := createTable db tableName cols
      match InsertData tableName cols records with
      | .error e => (db, some (.insertFailed e))
      | .ok conv => (appendRows wd tableName conv, none)

/-- C1: whenever the bulk load fails — any row failing, including a
type-conversion failure occurring after the Overwrite DDL has already run
inside the transaction (scenario D) — the whole transaction spanning the
drop/create DDL and the data load is rolled back, and the database state
visible to the caller is unchanged. -/
theorem claim_C1_rollback_on_insert_failure
    (db : DBState) (tableName action : String) (cols : List ColumnDefinition)
    (records : List (List String)) (e : InsertError)
    (h : InsertData tableName cols records = .error e) :
    (CommitCSV db tableName action cols records).1 = db := by
  rw [CommitCSV]
  by_cases hex : tableExists db tableName = true
  · rw [if_pos hex]
    by_cases hov : action = "overwrite"
    · rw [if_pos hov, h]
    · rw [if_neg hov]
      by_cases hap : action = "append"
      · rw [if_pos hap, h]
      · rw [if_neg hap]
        by_cases hcr : action = "create"
        · rw [if_pos hcr]
        · rw [if_neg hcr]
  · rw [if_neg hex]
    by_cases hap : action = "append"
    · rw [if_pos hap]
    · rw [if_neg hap, h]

/-- Witness for `claim_C1_rollback_on_insert_failure`: scenario D — an
Overwrite commit on an existing BOOLEAN table whose CSV contains the
non-boolean token `"maybe"`.  The load fails with the type-conversion error
after the drop/recreate DDL, and the visible state equals the initial one. -/
theorem claim_C1_witness :
    InsertData "t" [⟨"c", "BOOLEAN"⟩] [["maybe"]] =
      .error (.typeConversion 1 "c" "maybe" "BOOLEAN") ∧
    (CommitCSV [("t", ⟨[⟨"c", "BOOLEAN"⟩], [[some (.bool true)]]⟩)] "t" "overwrite"
        [⟨"c", "BOOLEAN"⟩] [["maybe"]]).1 =
      [("t", ⟨[⟨"c", "BOOLEAN"⟩], [[some (.bool true)]]⟩)] :=
  ⟨rfl, claim_C1_rollback_on_insert_failure _ "t" "overwrite" _ _ _ rfl⟩

/-- C6 (counterexample): Overwrite does not require the target table to
exist, and no validator runs: on an empty database an Overwrite commit simply
creates the table and succeeds, where the claim demands a conflict. -/
theorem claim_C6_counterexample :
    CommitCSV [] "t" "overwrite" [⟨"a", "TEXT"⟩] [] =
      ([("t", ⟨[⟨"a", "TEXT"⟩], []⟩)], none) := rfl

theorem appendRows_fresh {X : DBState} {name : String} (cols : List ColumnDefinition)
    (conv : List (List (Option SQLValue)))
    (hX : ∀ e ∈ X, e.1 ≠ name) :
    appendRows (X ++ [(name, ⟨cols, []⟩)]) name conv = X ++ [(name, ⟨cols, conv⟩)] := by
  rw [appendRows, List.map_append]
  congr 1
  · refine (List.map_congr_left ?_).trans (List.map_id X)
    intro e he
    exact if_neg (hX e he)
  · simp

/-- C6 (amended): in the current commit flow, an Overwrite on an existing
table drops it and recreates it with the newly supplied schema (not the
previous one) inside the commit transaction, then loads the converted rows
into the fresh table; no schema validator is consulted, and an Overwrite on
an absent table acts as Create instead of raising a conflict. -/
theorem claim_C6_amended (db : DBState) (tableName : String)
    (cols : List ColumnDefinition) (records : List (List String))
    (conv : List (List (Option SQLValue)))
    (hex : tableExists db tableName = true)
    (hins : InsertData tableName cols records = .ok conv) :
    CommitCSV db tableName "overwrite" cols records =
      (dropTable db tableName ++ [(tableName, ⟨cols, conv⟩)], none) := by
  rw [CommitCSV, if_pos hex, if_pos rfl, hins]
  show (appendRows (dropTable db tableName ++ [(tableName, ⟨cols, []⟩)]) tableName conv,
      (none : Option CommitError)) = _
  rw [appendRows_fresh cols conv]
  intro e he
  rw [dropTable] at he
  have := List.mem_filter.mp he
  simpa using this.2

/-- Witness for `claim_C6_amended`: overwriting the existing one-TEXT-column
table `t` with a one-INTEGER-column schema replaces both schema and rows. -/
theorem claim_C6_amended_witness :
    CommitCSV [("t", ⟨[⟨"a", "TEXT"⟩], [[some (.str "x")]]⟩)] "t" "overwrite"
        [⟨"b", "INTEGER"⟩] [["5"]] =
      ([("t", ⟨[⟨"b", "INTEGER"⟩], [[some (.int 5)]]⟩)], none) :=
  claim_C6_amended [("t", ⟨[⟨"a", "TEXT"⟩], [[some (.str "x")]]⟩)] "t"
    [⟨"b", "INTEGER"⟩] [["5"]] [[some (.int 5)]] (by decide) rfl

end SheetBridge
